import Mathlib

/-!
# StockContext: search / fetch / render data flow

A shallow embedding of `src/components/stock/StockContext.jsx`.

* `JsVal` models the values `response.json()` can deliver, with the three
  JavaScript operations the component applies to them: truthiness, property
  read and `Object.keys`.
* `State` is the record of the component's `useState` hooks; `App` adds the
  requests that are in flight.
* every `async` function is split at its `await`: `*_call` is the synchronous
  part that runs when the function is invoked, `*_settle` is the part that runs
  once the request has settled with an `Outcome`.
* `step` is one turn of the event loop followed by the `useEffect` on
  `selectedStock`; `run` folds it over a list of events.
-/

namespace StockContext

/-! ## JavaScript values -/

/-- JavaScript values as delivered by `response.json()`, plus `undefined`.
`Num` is the type of JavaScript numbers, kept abstract: the component only
tests numbers for truthiness and stores what `parseFloat` returns.
`obj props` lists the own properties in the order in which the engine
enumerates them (for keys that are not array indices, such as timestamps, the
order of the JSON text); keys of an object are pairwise distinct.
`str` covers well-formed text of the Basic Multilingual Plane. -/
inductive JsVal (Num : Type) where
  | undefined : JsVal Num
  | null : JsVal Num
  | bool (b : Bool) : JsVal Num
  | num (x : Num) : JsVal Num
  | str (s : String) : JsVal Num
  | arr (items : List (JsVal Num)) : JsVal Num
  | obj (props : List (String × JsVal Num)) : JsVal Num

/-- The built-ins the component calls and that are not part of the repository.
`parseFloat v` is `none` when the call throws (`ToString` of an object whose
`toString` and `valueOf` are shadowed), otherwise the number it returns, `NaN`
included. `isTruthyNum x` is `false` for `0`, `-0` and `NaN`. `numToString x` is
`ToString` of a number, `objectToString v` is `ToString` of an array or object,
`none` when it throws. `sameNum x y` is `Object.is` on two numbers. -/
structure Builtins (Num : Type) where
  parseFloat : JsVal Num → Option Num
  isTruthyNum : Num → Bool
  numToString : Num → String
  objectToString : JsVal Num → Option String
  sameNum : Num → Num → Bool

variable {Num : Type}

/-- The value of `ToBoolean(v)`, as taken by `if (v)` and `v && ...`. -/
def Builtins.truthy (h : Builtins Num) : JsVal Num → Bool
  | .undefined => false
  | .null => false
  | .bool b => b
  | .num x => h.isTruthyNum x
  | .str s => decide (s ≠ "")
  | .arr _ => true
  | .obj _ => true

/-- The value of `ToString(v)`, as taken by a template literal: `none` when it
throws. -/
def Builtins.toStr (h : Builtins Num) : JsVal Num → Option String
  | .undefined => some "undefined"
  | .null => some "null"
  | .bool b => some (if b then "true" else "false")
  | .num x => some (h.numToString x)
  | .str s => some s
  | .arr items => h.objectToString (JsVal.arr items)
  | .obj props => h.objectToString (JsVal.obj props)

/-- The value of `Object.is(previous, next)` where `next` has just been written
by `handleStockSelect`: equality of type and value on primitives; an array or
object written then is part of the body parsed for the latest search response,
a reference distinct from whatever was selected before. -/
def Builtins.sameValue (h : Builtins Num) : JsVal Num → JsVal Num → Bool
  | .undefined, .undefined => true
  | .null, .null => true
  | .bool a, .bool b => a == b
  | .num x, .num y => h.sameNum x y
  | .str a, .str b => a == b
  | _, _ => false

/-- The canonical index keys `"0", "1", ...` of an array-like of length `n`. -/
def indexKeys (n : Nat) : List String :=
  (List.range n).map toString

/-- The own enumerable string-keyed properties of a value, in enumeration
order: the properties of an object, the indexed elements of an array, the
characters of a string, nothing for the other primitives. -/
def JsVal.ownProps : JsVal Num → List (String × JsVal Num)
  | .obj props => props
  | .arr items => (indexKeys items.length).zip items
  | .str s => (indexKeys s.length).zip (s.toList.map fun c => JsVal.str (String.singleton c))
  | _ => []

/-- The call `Object.keys(v)`; the component calls it on truthy values only. -/
def objectKeys (v : JsVal Num) : List String :=
  v.ownProps.map Prod.fst

/-- The property read `v[key]`: `none` when it throws a `TypeError` (`v` is
`null` or `undefined`), otherwise the own property, or `undefined` when there is
none. Inherited and non-enumerable properties (`length`, `toString`) are not
modelled: no key the component reads names one. -/
def JsVal.get (v : JsVal Num) (key : String) : Option (JsVal Num) :=
  match v with
  | .undefined => none
  | .null => none
  | _ => some ((v.ownProps.lookup key).getD JsVal.undefined)

/-- The call `xs.map(f)` of `Array.prototype.map` with a callback that may
throw: the callback runs on the elements in order and the first throw aborts
the call. -/
def jsMap {α β : Type} (f : α → Option β) : List α → Option (List β)
  | [] => some []
  | a :: as =>
    match f a with
    | none => none
    | some b =>
      match jsMap f as with
      | none => none
      | some bs => some (b :: bs)

/-! ## Component state -/

/-- One entry of `chartData.datasets`: `label` and `data`; the four constant
styling fields (`borderColor`, `backgroundColor`, `fill`, `tension`) are left
out. -/
structure Dataset (Num : Type) where
  label : String
  data : List Num
  deriving DecidableEq

/-- The object passed to `setChartData`. -/
structure ChartData (Num : Type) where
  labels : List String
  datasets : List (Dataset Num)
  deriving DecidableEq

/-- One element of `candlestickData`: `x` is the timestamp, `y` the array
`[open, high, low, close]`. -/
structure Candle (Num : Type) where
  x : String
  y : List Num
  deriving DecidableEq

/-- The `useState` hooks of the component. `searchQuery` and `selectedStock`
start as the empty string and take whatever `handleStockSelect` is called with.
`chartData` is `none` for the initial `{}` (whose `labels` is `undefined`). The
hook `stockData` is never written or read and is left out. -/
structure State (Num : Type) where
  searchQuery : JsVal Num
  suggestions : JsVal Num
  selectedStock : JsVal Num
  chartData : Option (ChartData Num)
  candlestickData : List (Candle Num)
  loading : Bool
  isLineChart : Bool

/-- The state of the first render. -/
def State.init : State Num :=
  { searchQuery := JsVal.str ""
    suggestions := JsVal.arr []
    selectedStock := JsVal.str ""
    chartData := none
    candlestickData := []
    loading := false
    isLineChart := false }

/-- How a request settles: `rejected` when `fetch` or `response.json()`
rejects, `json body` when the body parsed to `body`. -/
inductive Outcome (Num : Type) where
  | rejected : Outcome Num
  | json (body : JsVal Num) : Outcome Num

/-- How a function call completes. -/
inductive Completion where
  | normal
  | throw
  deriving DecidableEq

/-- The path taken through the `try` block of `fetchStockData`. -/
inductive Path where
  | updated
  | invalidFormat
  | threw
  deriving DecidableEq

/-! ## fetchSuggestions -/

/-- The `try` block of `fetchSuggestions` after both awaits: `none` when
reading `result.bestMatches` throws. -/
def fetchSuggestions_tryBlock (h : Builtins Num) (result : JsVal Num) (s : State Num) :
    Option (State Num) :=
  match result.get "bestMatches" with
  | none => none
  | some bestMatches =>
    if h.truthy bestMatches then
      some { s with suggestions := bestMatches }
    else
      some { s with suggestions := JsVal.arr [] }

/-- The part of `fetchSuggestions` that runs when its request has settled,
with the `catch` that logs and swallows every throw. -/
def fetchSuggestions_settle (h : Builtins Num) (o : Outcome Num) (s : State Num) :
    Completion × State Num :=
  match o with
  | .rejected => (Completion.normal, s)
  | .json result =>
    match fetchSuggestions_tryBlock h result s with
    | none => (Completion.normal, s)
    | some s1 => (Completion.normal, s1)

/-! ## fetchStockData -/

/-- The callback `(time) => parseFloat(times[time][field])`. -/
def readField (h : Builtins Num) (times : JsVal Num) (field : String) (time : String) :
    Option Num :=
  match times.get time with
  | none => none
  | some sample =>
    match sample.get field with
    | none => none
    | some v => h.parseFloat v

/-- The callback of the candlestick `map`. -/
def readCandle (h : Builtins Num) (times : JsVal Num) (time : String) : Option (Candle Num) :=
  match readField h times "1. open" time with
  | none => none
  | some o =>
    match readField h times "2. high" time with
    | none => none
    | some hi =>
      match readField h times "3. low" time with
      | none => none
      | some lo =>
        match readField h times "4. close" time with
        | none => none
        | some c => some { x := time, y := [o, hi, lo, c] }

/-- The `try` block of `fetchStockData` after both awaits, with the state as
left when the block ends or throws. `symbol` is the text of the template
literal of the symbol the call was made with. -/
def fetchStockData_tryBlock (h : Builtins Num) (symbol : String) (timeSeriesResult : JsVal Num)
    (s : State Num) : Path × State Num :=
  match timeSeriesResult.get "Time Series (5min)" with
  | none => (Path.threw, s)
  | some times =>
    if h.truthy times then
      let timeLabels := (objectKeys times).reverse
      match jsMap (readField h times "1. open") timeLabels with
      | none => (Path.threw, s)
      | some prices =>
        let s1 := { s with
          chartData := some
            { labels := timeLabels
              datasets := [{ label := symbol ++ " Price", data := prices }] } }
        match jsMap (readCandle h times) timeLabels with
        | none => (Path.threw, s1)
        | some candlestick => (Path.updated, { s1 with candlestickData := candlestick })
    else
      (Path.invalidFormat, s)

/-- The part of `fetchStockData` that runs when its request has settled: the
`try` block, the `catch` that logs and swallows every throw, and the `finally`
that clears `loading`. -/
def fetchStockData_settle (h : Builtins Num) (symbol : String) (o : Outcome Num)
    (s : State Num) : Completion × State Num :=
  match o with
  | .rejected => (Completion.normal, { s with loading := false })
  | .json timeSeriesResult =>
    (Completion.normal, { (fetchStockData_tryBlock h symbol timeSeriesResult s).2 with
      loading := false })

/-! ## The component: handlers, effect and event loop -/

/-- The component between two turns of the event loop: the hook state and the
requests in flight, each named by the text of the query or symbol in its URL,
oldest first. -/
structure App (Num : Type) where
  ui : State Num
  searchInFlight : List String
  intradayInFlight : List String

/-- The first render: nothing is in flight. -/
def App.init : App Num :=
  { ui := State.init, searchInFlight := [], intradayInFlight := [] }

/-- The synchronous part of `fetchSuggestions(query)`: the search request is
issued. -/
def fetchSuggestions_call (query : String) (a : App Num) : App Num :=
  { a with searchInFlight := a.searchInFlight ++ [query] }

/-- The synchronous part of `fetchStockData(symbol)`: `setLoading(true)`, then
the template literal of the URL. When it evaluates, the intraday request is
issued; when `ToString(symbol)` throws, the `catch` logs, the `finally` runs
`setLoading(false)` and nothing is in flight. -/
def fetchStockData_call (h : Builtins Num) (symbol : JsVal Num) (a : App Num) : App Num :=
  match h.toStr symbol with
  | some text =>
    { a with
      ui := { a.ui with loading := true }
      intradayInFlight := a.intradayInFlight ++ [text] }
  | none => { a with ui := { a.ui with loading := false } }

/-- The handler `handleInputChange`, applied to `e.target.value`. -/
def handleInputChange (value : String) (a : App Num) : App Num :=
  let a1 := { a with ui := { a.ui with searchQuery := JsVal.str value } }
  if value.length > 0 then
    fetchSuggestions_call value a1
  else
    { a1 with ui := { a1.ui with suggestions := JsVal.arr [] } }

/-- The handler `handleStockSelect`. -/
def handleStockSelect (h : Builtins Num) (symbol : JsVal Num) (a : App Num) : App Num :=
  let a1 := { a with
    ui := { a.ui with selectedStock := symbol, searchQuery := symbol, suggestions := JsVal.arr [] } }
  fetchStockData_call h symbol a1

/-- The effect `useEffect(..., [selectedStock])` after the render that follows
`handleStockSelect`: it runs when `selectedStock` is not `Object.is`-equal to
its value `previous` at the render before, and fetches when the new value is
truthy. -/
def selectedStockEffect (h : Builtins Num) (previous : JsVal Num) (a : App Num) : App Num :=
  if h.sameValue previous a.ui.selectedStock then a
  else if h.truthy a.ui.selectedStock then fetchStockData_call h a.ui.selectedStock a
  else a

/-- The handler of the LINE CHART and CANDLESTICK CHART buttons:
`setIsLineChart(b)`. -/
def setIsLineChart (b : Bool) (a : App Num) : App Num :=
  { a with ui := { a.ui with isLineChart := b } }

/-- What one `li` of the suggestion list shows: `item['1. symbol']` and
`item['2. name']`; `none` when reading them throws. -/
def suggestionItem (item : JsVal Num) : Option (JsVal Num × JsVal Num) :=
  match item.get "1. symbol" with
  | none => none
  | some symbol =>
    match item.get "2. name" with
    | none => none
    | some name => some (symbol, name)

/-- The suggestion list as rendered from an array-valued `suggestions`: no
list unless `suggestions.length > 0`, otherwise one `li` per item. -/
def renderSuggestions (suggestions : List (JsVal Num)) : Option (List (JsVal Num × JsVal Num)) :=
  if suggestions.length > 0 then jsMap suggestionItem suggestions else some []

/-- The events of the event loop. `click index` is a click on the `li` of
suggestion `index`; `searchSettles k o` and `intradaySettles k o` settle the
`k`-th request in flight with outcome `o`. -/
inductive Event (Num : Type) where
  | input (value : String) : Event Num
  | click (index : Nat) : Event Num
  | lineChart : Event Num
  | candlestickChart : Event Num
  | searchSettles (k : Nat) (o : Outcome Num) : Event Num
  | intradaySettles (k : Nat) (o : Outcome Num) : Event Num

/-- The handler run by an event; `none` when the event cannot occur: no such
request in flight, or no such `li` (`suggestions` is not an array, the index is
out of range, or reading `'1. symbol'` off the item throws in the render). A
click passes `item['1. symbol']` to `handleStockSelect` as it is, a string or
not. -/
def handle (h : Builtins Num) (a : App Num) : Event Num → Option (App Num)
  | .input value => some (handleInputChange value a)
  | .click index =>
    match a.ui.suggestions with
    | .arr items =>
      match items[index]? with
      | some item =>
        match item.get "1. symbol" with
        | some symbol => some (handleStockSelect h symbol a)
        | none => none
      | none => none
    | _ => none
  | .lineChart => some (setIsLineChart true a)
  | .candlestickChart => some (setIsLineChart false a)
  | .searchSettles k o =>
    match a.searchInFlight[k]? with
    | some _ =>
      some { a with
        ui := (fetchSuggestions_settle h o a.ui).2
        searchInFlight := a.searchInFlight.eraseIdx k }
    | none => none
  | .intradaySettles k o =>
    match a.intradayInFlight[k]? with
    | some symbol =>
      some { a with
        ui := (fetchStockData_settle h symbol o a.ui).2
        intradayInFlight := a.intradayInFlight.eraseIdx k }
    | none => none

/-- One turn of the event loop: the handler, the render, then the effect on
`selectedStock`. Only `handleStockSelect` writes `selectedStock`; after every
other handler the dependency is the value of the render before and the effect
does not run. -/
def step (h : Builtins Num) (a : App Num) (e : Event Num) : Option (App Num) :=
  match handle h a e with
  | none => none
  | some a1 =>
    match e with
    | .click _ => some (selectedStockEffect h a.ui.selectedStock a1)
    | _ => some a1

/-- The component after a list of events. A render that throws (a suggestion
list that is not an array, an item that is `null`) is not modelled as the end of
the component: the state is kept, so that `run` reaches every state of the
component and possibly more. -/
def run (h : Builtins Num) (a : App Num) : List (Event Num) → Option (App Num)
  | [] => some a
  | e :: es =>
    match step h a e with
    | none => none
    | some a1 => run h a1 es

/-! ## The chart area -/

/-- Which of the four conditional blocks of the chart area are rendered. -/
structure ChartArea where
  prompt : Bool
  loadingIndicator : Bool
  lineChart : Bool
  candlestickChart : Bool
  deriving DecidableEq

/-- Truthiness of `chartData.labels`: `undefined` for the initial `{}`, an
array (truthy, also when empty) once `setChartData` has run. -/
def labelsTruthy (chartData : Option (ChartData Num)) : Bool :=
  match chartData with
  | none => false
  | some _ => true

/-- The four guards of the chart area. -/
def renderChartArea (h : Builtins Num) (selectedStock : JsVal Num) (loading isLineChart : Bool)
    (chartData : Option (ChartData Num)) (candlestickData : List (Candle Num)) : ChartArea :=
  let selected : Bool := h.truthy selectedStock
  { prompt := !selected && !loading
    loadingIndicator := loading
    lineChart := !loading && selected && isLineChart && labelsTruthy chartData
    candlestickChart := !loading && selected && !isLineChart && decide (candlestickData.length > 0) }

/-- The chart area of a state. -/
def State.chartArea (h : Builtins Num) (s : State Num) : ChartArea :=
  renderChartArea h s.selectedStock s.loading s.isLineChart s.chartData s.candlestickData

/-- The number of blocks rendered. -/
def ChartArea.count (v : ChartArea) : Nat :=
  v.prompt.toNat + v.loadingIndicator.toNat + v.lineChart.toNat + v.candlestickChart.toNat

/-! ## Sample data -/

/-- Numbers of the examples: `none` is `NaN`, `some n` the natural number `n`. -/
abbrev SampleNum := Option Nat

/-- The value of a string of decimal digits, `none` for any other string. -/
def digitsValue (s : String) : Option Nat :=
  if s.toList ≠ [] ∧ s.toList.all Char.isDigit then
    some (s.toList.foldl (fun n c => 10 * n + (c.toNat - 48)) 0)
  else
    none

/-- Built-ins of the examples: `parseFloat` on strings of decimal digits and on
`undefined`, the only arguments it receives there; `objectToString` on objects
that do not shadow `toString`, the only ones converted there. -/
def sampleBuiltins : Builtins SampleNum :=
  { parseFloat := fun v =>
      match v with
      | .str s => some (digitsValue s)
      | .num x => some x
      | _ => some none
    isTruthyNum := fun x =>
      match x with
      | some n => decide (n ≠ 0)
      | none => false
    numToString := fun x =>
      match x with
      | some n => toString n
      | none => "NaN"
    objectToString := fun _ => some "[object Object]"
    sameNum := fun x y => decide (x = y) }

/-- One sample of an intraday response. -/
def sampleBar (o hi lo c : String) : JsVal SampleNum :=
  JsVal.obj [("1. open", JsVal.str o), ("2. high", JsVal.str hi), ("3. low", JsVal.str lo),
    ("4. close", JsVal.str c), ("5. volume", JsVal.str "1000")]

/-- The samples of `sampleIntraday`, newest first as the API sends them. -/
def sampleTimes : List (String × JsVal SampleNum) :=
  [("09:35", sampleBar "102" "104" "101" "103"), ("09:30", sampleBar "100" "105" "99" "102")]

/-- An intraday response with the two samples of the scenario of the
specification. -/
def sampleIntraday : JsVal SampleNum :=
  JsVal.obj [("Meta Data", JsVal.obj [("2. Symbol", JsVal.str "AAPL")]),
    ("Time Series (5min)", JsVal.obj sampleTimes)]

/-- A second intraday response, for another symbol. -/
def sampleIntradayMsft : JsVal SampleNum :=
  JsVal.obj [("Meta Data", JsVal.obj [("2. Symbol", JsVal.str "MSFT")]),
    ("Time Series (5min)", JsVal.obj
      [("09:35", sampleBar "412" "415" "411" "414"), ("09:30", sampleBar "410" "413" "409" "412")])]

/-- A successful intraday response with zero samples. -/
def sampleIntradayEmpty : JsVal SampleNum :=
  JsVal.obj [("Meta Data", JsVal.obj [("2. Symbol", JsVal.str "AAPL")]),
    ("Time Series (5min)", JsVal.obj [])]

/-- A response without the `"Time Series (5min)"` field. -/
def sampleNote : JsVal SampleNum :=
  JsVal.obj [("Note", JsVal.str "API call frequency exceeded")]

/-- One entry of `bestMatches`. -/
def sampleMatch (symbol name : String) : JsVal SampleNum :=
  JsVal.obj [("1. symbol", JsVal.str symbol), ("2. name", JsVal.str name)]

/-- A search response with one match. -/
def sampleSearch (symbol name : String) : JsVal SampleNum :=
  JsVal.obj [("bestMatches", JsVal.arr [sampleMatch symbol name])]

/-- The user searches for a symbol and selects the only suggestion. -/
def selectTrace (query symbol name : String) : List (Event SampleNum) :=
  [Event.input query, Event.searchSettles 0 (Outcome.json (sampleSearch symbol name)),
    Event.click 0]

/-- AAPL is selected, MSFT is selected while both AAPL fetches are pending, the
two MSFT fetches resolve, then the two AAPL fetches resolve. -/
def staleTrace : List (Event SampleNum) :=
  selectTrace "AAP" "AAPL" "Apple Inc." ++ selectTrace "MSF" "MSFT" "Microsoft" ++
    [Event.intradaySettles 2 (Outcome.json sampleIntradayMsft),
      Event.intradaySettles 2 (Outcome.json sampleIntradayMsft),
      Event.intradaySettles 0 (Outcome.json sampleIntraday),
      Event.intradaySettles 0 (Outcome.json sampleIntraday)]

/-- AAPL is selected and the first of its two fetches resolves. -/
def firstSettleTrace : List (Event SampleNum) :=
  selectTrace "AAP" "AAPL" "Apple Inc." ++
    [Event.intradaySettles 0 (Outcome.json sampleIntraday)]

/-- The user types, clears the input, and the search response arrives. -/
def lateSearchTrace : List (Event SampleNum) :=
  [Event.input "AAP", Event.input "",
    Event.searchSettles 0 (Outcome.json (sampleSearch "AAPL" "Apple Inc."))]

/-- A search fills the list, the user types on, and the second search answers
with the body `null`. -/
def nullSearchTrace : List (Event SampleNum) :=
  [Event.input "AAP", Event.searchSettles 0 (Outcome.json (sampleSearch "AAPL" "Apple Inc.")),
    Event.input "AAPL", Event.searchSettles 0 (Outcome.json JsVal.null)]

/-- AAPL is selected in line mode and both fetches resolve with zero samples. -/
def emptySeriesTrace : List (Event SampleNum) :=
  selectTrace "AAP" "AAPL" "Apple Inc." ++
    [Event.lineChart,
      Event.intradaySettles 0 (Outcome.json sampleIntradayEmpty),
      Event.intradaySettles 0 (Outcome.json sampleIntradayEmpty)]

/-- The line series and the candlestick series that `fetchStockData(symbol)`
derives from a response, read off a run of the `try` block. -/
def seriesOf (h : Builtins Num) (symbol : String) (result : JsVal Num) :
    Option (ChartData Num) × List (Candle Num) :=
  ((fetchStockData_tryBlock h symbol result State.init).2.chartData,
    (fetchStockData_tryBlock h symbol result State.init).2.candlestickData)

/-- The chart data of a state: `chartData` and `candlestickData`. -/
def State.charts (s : State Num) : Option (ChartData Num) × List (Candle Num) :=
  (s.chartData, s.candlestickData)

/-- The component right after the selection of AAPL from the first render: both
fetches are in flight. -/
def sampleSelected : App SampleNum :=
  { ui :=
      { searchQuery := JsVal.str "AAPL"
        suggestions := JsVal.arr []
        selectedStock := JsVal.str "AAPL"
        chartData := none
        candlestickData := []
        loading := true
        isLineChart := false }
    searchInFlight := []
    intradayInFlight := ["AAPL", "AAPL"] }

/-- The invariant of `loading`: it is set only while an intraday request is in
flight. -/
def LoadingInv (a : App Num) : Prop :=
  a.ui.loading = true → a.intradayInFlight ≠ []

/-- The events that call `fetchStockData` or settle one of its requests. -/
def Event.isFetchEvent : Event Num → Bool
  | .click _ => true
  | .intradaySettles _ _ => true
  | _ => false

/-- The events that select a symbol. -/
def Event.isSelect : Event Num → Bool
  | .click _ => true
  | _ => false

/-- What one turn of the event loop does to `loading` and to the intraday
requests in flight. A click leaves `loading` set with one or two new requests,
or, when the text of the symbol cannot be formed, cleared with none; the
settlement of request `k` clears `loading` and removes that request; every
other event leaves both as they were. -/
def LoadingStep (a : App Num) (e : Event Num) (a1 : App Num) : Prop :=
  match e with
  | .click _ =>
    (a1.ui.loading = true ∧
      ∃ text, a1.intradayInFlight = a.intradayInFlight ++ [text] ∨
        a1.intradayInFlight = a.intradayInFlight ++ [text, text]) ∨
    (a1.ui.loading = false ∧ a1.intradayInFlight = a.intradayInFlight)
  | .intradaySettles k _ =>
    a1.ui.loading = false ∧ a1.intradayInFlight = a.intradayInFlight.eraseIdx k
  | _ => a1.ui.loading = a.ui.loading ∧ a1.intradayInFlight = a.intradayInFlight

/-- A search response whose only match has no `'1. symbol'`. -/
def sampleSearchNoSymbol : JsVal SampleNum :=
  JsVal.obj [("bestMatches", JsVal.arr [JsVal.obj [("2. name", JsVal.str "Apple Inc.")]])]

/-- The user searches and clicks a suggestion that has no `'1. symbol'`. -/
def noSymbolTrace : List (Event SampleNum) :=
  [Event.input "AAP", Event.searchSettles 0 (Outcome.json sampleSearchNoSymbol), Event.click 0]

/-! ## Lemmas on the list operations -/

theorem jsMap_length {α β : Type} (f : α → Option β) :
    ∀ (l : List α) (r : List β), jsMap f l = some r → r.length = l.length := by
  intro l
  induction l with
  | nil => intro r hr; simp [jsMap] at hr; simp [← hr]
  | cons a as ih =>
    intro r hr
    simp only [jsMap] at hr
    cases hfa : f a with
    | none => simp [hfa] at hr
    | some b =>
      cases hrest : jsMap f as with
      | none => simp [hfa, hrest] at hr
      | some bs =>
        simp [hfa, hrest] at hr
        subst hr
        simp [ih bs hrest]

theorem jsMap_getElem? {α β : Type} (f : α → Option β) :
    ∀ (l : List α) (r : List β), jsMap f l = some r →
      ∀ (i : Nat) (a : α), l[i]? = some a → ∃ b, r[i]? = some b ∧ f a = some b := by
  intro l
  induction l with
  | nil => intro r _ i a hi; simp at hi
  | cons x xs ih =>
    intro r hr i a hi
    simp only [jsMap] at hr
    cases hfa : f x with
    | none => simp [hfa] at hr
    | some b =>
      cases hrest : jsMap f xs with
      | none => simp [hfa, hrest] at hr
      | some bs =>
        simp [hfa, hrest] at hr
        subst hr
        cases i with
        | zero =>
          simp at hi
          subst hi
          exact ⟨b, by simp, hfa⟩
        | succ j =>
          simp at hi
          obtain ⟨c, hc, hfc⟩ := ih bs hrest j a hi
          exact ⟨c, by simpa using hc, hfc⟩

theorem lookup_of_mem_nodup (props : List (String × JsVal Num)) :
    (props.map Prod.fst).Nodup → ∀ t v, (t, v) ∈ props → props.lookup t = some v := by
  induction props with
  | nil => intro _ t v hm; simp at hm
  | cons p ps ih =>
    intro hnd t v hm
    obtain ⟨k, w⟩ := p
    simp only [List.map_cons, List.nodup_cons] at hnd
    simp only [List.mem_cons, Prod.mk.injEq] at hm
    rcases hm with ⟨rfl, rfl⟩ | hm
    · simp [List.lookup]
    · have hne : t ≠ k := by
        intro heq
        subst heq
        exact hnd.1 (List.mem_map.mpr ⟨(t, v), hm, rfl⟩)
      have hb : (t == k) = false := by simpa using hne
      simp [List.lookup, hb, ih hnd.2 t v hm]

/-! ## Lemmas on fetchStockData -/

theorem readCandle_x (h : Builtins Num) (times : JsVal Num) (t : String) (c : Candle Num)
    (hc : readCandle h times t = some c) : c.x = t := by
  unfold readCandle at hc
  split at hc
  · simp at hc
  · split at hc
    · simp at hc
    · split at hc
      · simp at hc
      · split at hc
        · simp at hc
        · simp at hc
          simp [← hc]

theorem jsMap_readCandle_x (h : Builtins Num) (times : JsVal Num) :
    ∀ (l : List String) (r : List (Candle Num)),
      jsMap (readCandle h times) l = some r → r.map Candle.x = l := by
  intro l
  induction l with
  | nil => intro r hr; simp [jsMap] at hr; simp [← hr]
  | cons a as ih =>
    intro r hr
    simp only [jsMap] at hr
    cases hfa : readCandle h times a with
    | none => simp [hfa] at hr
    | some b =>
      cases hrest : jsMap (readCandle h times) as with
      | none => simp [hfa, hrest] at hr
      | some bs =>
        simp [hfa, hrest] at hr
        subst hr
        simp [ih bs hrest, readCandle_x h times a b hfa]

/-- The shape of a run of the `try` block that reaches `setCandlestickData`. -/
theorem tryBlock_updated (h : Builtins Num) (symbol : String) (result : JsVal Num) (s : State Num)
    (hok : (fetchStockData_tryBlock h symbol result s).1 = Path.updated) :
    ∃ times prices candlestick,
      result.get "Time Series (5min)" = some times ∧ h.truthy times = true ∧
      jsMap (readField h times "1. open") (objectKeys times).reverse = some prices ∧
      jsMap (readCandle h times) (objectKeys times).reverse = some candlestick ∧
      (fetchStockData_tryBlock h symbol result s).2 =
        { s with
          chartData := some
            { labels := (objectKeys times).reverse
              datasets := [{ label := symbol ++ " Price", data := prices }] }
          candlestickData := candlestick } := by
  unfold fetchStockData_tryBlock at hok ⊢
  cases hg : result.get "Time Series (5min)" with
  | none => simp [hg] at hok
  | some times =>
    simp only [hg] at hok ⊢
    cases ht : h.truthy times with
    | false => simp [ht] at hok
    | true =>
      simp only [ht, if_true] at hok ⊢
      cases hp : jsMap (readField h times "1. open") (objectKeys times).reverse with
      | none => simp [hp] at hok
      | some prices =>
        simp only [hp] at hok ⊢
        cases hc : jsMap (readCandle h times) (objectKeys times).reverse with
        | none => simp [hc] at hok
        | some candlestick =>
          exact ⟨times, prices, candlestick, rfl, ht, hp, hc, by simp [hc]⟩

theorem readCandle_some (h : Builtins Num) (times : JsVal Num) (t : String) (cd : Candle Num)
    (hc : readCandle h times t = some cd) :
    ∃ o hi lo c,
      readField h times "1. open" t = some o ∧ readField h times "2. high" t = some hi ∧
      readField h times "3. low" t = some lo ∧ readField h times "4. close" t = some c ∧
      cd = { x := t, y := [o, hi, lo, c] } := by
  unfold readCandle at hc
  cases h1 : readField h times "1. open" t with
  | none => simp [h1] at hc
  | some o =>
    cases h2 : readField h times "2. high" t with
    | none => simp [h1, h2] at hc
    | some hi =>
      cases h3 : readField h times "3. low" t with
      | none => simp [h1, h2, h3] at hc
      | some lo =>
        cases h4 : readField h times "4. close" t with
        | none => simp [h1, h2, h3, h4] at hc
        | some c =>
          simp [h1, h2, h3, h4] at hc
          exact ⟨o, hi, lo, c, rfl, rfl, rfl, rfl, hc.symm⟩

theorem readField_obj (h : Builtins Num) (props : List (String × JsVal Num)) (field t : String)
    (v : JsVal Num) (hl : props.lookup t = some v) :
    readField h (JsVal.obj props) field t = (v.get field).bind h.parseFloat := by
  have hget : (JsVal.obj props).get t = some v := by
    simp [JsVal.get, JsVal.ownProps, hl]
  unfold readField
  rw [hget]
  cases hv : v.get field <;> simp [hv]


/-- C1. For a successful intraday response whose `"Time Series (5min)"` mapping
holds the samples `props` (in the order of `Object.keys`), the state left by
`fetchStockData` has a line series (`chartData.labels` and `datasets[0].data`)
and a candlestick series of length `props.length`, and the timestamps of both
are the keys of `props` in reverse order. -/
theorem fetchStockData_series_reversed (h : Builtins Num) (symbol : String) (result : JsVal Num)
    (s : State Num) (props : List (String × JsVal Num))
    (hts : result.get "Time Series (5min)" = some (JsVal.obj props))
    (hok : (fetchStockData_tryBlock h symbol result s).1 = Path.updated) :
    ∃ prices : List Num,
      (fetchStockData_settle h symbol (Outcome.json result) s).2.chartData =
        some { labels := (props.map Prod.fst).reverse
               datasets := [{ label := symbol ++ " Price", data := prices }] } ∧
      ((props.map Prod.fst).reverse).length = props.length ∧
      prices.length = props.length ∧
      (fetchStockData_settle h symbol (Outcome.json result) s).2.candlestickData.length
        = props.length ∧
      (fetchStockData_settle h symbol (Outcome.json result) s).2.candlestickData.map Candle.x
        = (props.map Prod.fst).reverse := by
  obtain ⟨times, prices, candlestick, hg, _, hp, hc, hs⟩ := tryBlock_updated h symbol result s hok
  rw [hts] at hg
  cases hg
  have hkeys : objectKeys (JsVal.obj props) = props.map Prod.fst := rfl
  rw [hkeys] at hp hc hs
  refine ⟨prices, ?_, by simp, ?_, ?_, ?_⟩
  · simp [fetchStockData_settle, hs]
  · simpa using jsMap_length _ _ _ hp
  · simp only [fetchStockData_settle, hs]
    simpa using jsMap_length _ _ _ hc
  · simp only [fetchStockData_settle, hs]
    exact jsMap_readCandle_x h _ _ _ hc

/-- Witness of C1 at the two-sample response of the scenario. -/
theorem fetchStockData_series_reversed_witness :
    sampleIntraday.get "Time Series (5min)" = some (JsVal.obj sampleTimes) ∧
    (fetchStockData_tryBlock sampleBuiltins "AAPL" sampleIntraday State.init).1 = Path.updated ∧
    ∃ prices : List SampleNum,
      (fetchStockData_settle sampleBuiltins "AAPL" (Outcome.json sampleIntraday)
          State.init).2.chartData =
        some { labels := (sampleTimes.map Prod.fst).reverse
               datasets := [{ label := "AAPL" ++ " Price", data := prices }] } ∧
      ((sampleTimes.map Prod.fst).reverse).length = sampleTimes.length ∧
      prices.length = sampleTimes.length ∧
      (fetchStockData_settle sampleBuiltins "AAPL" (Outcome.json sampleIntraday)
          State.init).2.candlestickData.length = sampleTimes.length ∧
      (fetchStockData_settle sampleBuiltins "AAPL" (Outcome.json sampleIntraday)
          State.init).2.candlestickData.map Candle.x = (sampleTimes.map Prod.fst).reverse :=
  ⟨by rfl, by decide,
    fetchStockData_series_reversed sampleBuiltins "AAPL" sampleIntraday State.init sampleTimes
      (by rfl) (by decide)⟩

theorem jsMap_some_of_forall {α β : Type} (f : α → Option β) :
    ∀ l : List α, (∀ a ∈ l, ∃ b, f a = some b) → ∃ r, jsMap f l = some r := by
  intro l
  induction l with
  | nil => intro _; exact ⟨[], rfl⟩
  | cons a as ih =>
    intro hall
    obtain ⟨b, hb⟩ := hall a (List.mem_cons_self a as)
    obtain ⟨bs, hbs⟩ := ih (fun x hx => hall x (List.mem_cons_of_mem a hx))
    exact ⟨b :: bs, by simp [jsMap, hb, hbs]⟩

/-- The `try` block reaches `setCandlestickData` on every response of the
documented shape: a mapping from distinct timestamps to objects, with a
`parseFloat` that does not throw. -/
theorem tryBlock_updated_of_objects (h : Builtins Num) (symbol : String) (result : JsVal Num)
    (s : State Num) (props : List (String × JsVal Num))
    (hts : result.get "Time Series (5min)" = some (JsVal.obj props))
    (hnd : (props.map Prod.fst).Nodup)
    (hobj : ∀ p ∈ props, ∃ q, p.2 = JsVal.obj q)
    (hpf : ∀ v, ∃ x, h.parseFloat v = some x) :
    (fetchStockData_tryBlock h symbol result s).1 = Path.updated := by
  have hfield : ∀ field t, t ∈ (props.map Prod.fst).reverse →
      ∃ x, readField h (JsVal.obj props) field t = some x := by
    intro field t ht
    rw [List.mem_reverse, List.mem_map] at ht
    obtain ⟨⟨t1, v⟩, hmem, rfl⟩ := ht
    obtain ⟨q, hq⟩ := hobj (t1, v) hmem
    simp only at hq
    subst hq
    rw [readField_obj h props field t1 (JsVal.obj q) (lookup_of_mem_nodup props hnd t1 _ hmem)]
    exact hpf _
  obtain ⟨prices, hp⟩ := jsMap_some_of_forall (readField h (JsVal.obj props) "1. open")
    (props.map Prod.fst).reverse (hfield "1. open")
  have hcandle : ∀ t ∈ (props.map Prod.fst).reverse,
      ∃ c, readCandle h (JsVal.obj props) t = some c := by
    intro t ht
    obtain ⟨o, ho⟩ := hfield "1. open" t ht
    obtain ⟨hi, hhi⟩ := hfield "2. high" t ht
    obtain ⟨lo, hlo⟩ := hfield "3. low" t ht
    obtain ⟨c, hc⟩ := hfield "4. close" t ht
    exact ⟨{ x := t, y := [o, hi, lo, c] }, by simp [readCandle, ho, hhi, hlo, hc]⟩
  obtain ⟨candles, hc⟩ := jsMap_some_of_forall (readCandle h (JsVal.obj props))
    (props.map Prod.fst).reverse hcandle
  have hkeys : objectKeys (JsVal.obj props) = props.map Prod.fst := rfl
  simp [fetchStockData_tryBlock, hts, Builtins.truthy, hkeys, hp, hc]

/-- C2. For a successful intraday response whose `"Time Series (5min)"` mapping
holds the samples `props`, at every index `i` of the resulting series, with
`(t, v)` the `i`-th sample in reverse order: the label of the line series is
`t` and its value is `parseFloat(v['1. open'])`, and the candlestick point is
`t` with `[open, high, low, close]` parsed from the same `v`, so that the line
value is the first component of the candlestick tuple. -/
theorem fetchStockData_series_pointwise (h : Builtins Num) (symbol : String) (result : JsVal Num)
    (s : State Num) (props : List (String × JsVal Num))
    (hts : result.get "Time Series (5min)" = some (JsVal.obj props))
    (hnd : (props.map Prod.fst).Nodup)
    (hok : (fetchStockData_tryBlock h symbol result s).1 = Path.updated) :
    ∃ (labels : List String) (prices : List Num),
      (fetchStockData_settle h symbol (Outcome.json result) s).2.chartData =
        some { labels := labels, datasets := [{ label := symbol ++ " Price", data := prices }] } ∧
      ∀ (i : Nat) (t : String) (v : JsVal Num), props.reverse[i]? = some (t, v) →
        ∃ o hi lo c,
          labels[i]? = some t ∧ prices[i]? = some o ∧
          (fetchStockData_settle h symbol (Outcome.json result) s).2.candlestickData[i]? =
            some { x := t, y := [o, hi, lo, c] } ∧
          (v.get "1. open").bind h.parseFloat = some o ∧
          (v.get "2. high").bind h.parseFloat = some hi ∧
          (v.get "3. low").bind h.parseFloat = some lo ∧
          (v.get "4. close").bind h.parseFloat = some c := by
  obtain ⟨times, prices, candlestick, hg, _, hp, hc, hs⟩ := tryBlock_updated h symbol result s hok
  rw [hts] at hg
  cases hg
  have hkeys : objectKeys (JsVal.obj props) = props.map Prod.fst := rfl
  rw [hkeys] at hp hc hs
  refine ⟨(props.map Prod.fst).reverse, prices, by simp [fetchStockData_settle, hs], ?_⟩
  intro i t v hi
  have hlabel : ((props.map Prod.fst).reverse)[i]? = some t := by
    rw [← List.map_reverse, List.getElem?_map, hi]
    rfl
  have hmem : (t, v) ∈ props := by
    have := List.getElem?_mem hi
    simpa using this
  have hl : props.lookup t = some v := lookup_of_mem_nodup props hnd t v hmem
  obtain ⟨o, hpo, hfo⟩ := jsMap_getElem? _ _ _ hp i t hlabel
  obtain ⟨cd, hcd, hfc⟩ := jsMap_getElem? _ _ _ hc i t hlabel
  obtain ⟨o2, hi2, lo2, c2, r1, r2, r3, r4, hcdeq⟩ := readCandle_some h _ t cd hfc
  have ho : o2 = o := by
    rw [hfo] at r1
    exact (Option.some.inj r1).symm
  subst ho
  refine ⟨o2, hi2, lo2, c2, hlabel, hpo, ?_, ?_, ?_, ?_, ?_⟩
  · simp only [fetchStockData_settle, hs]
    rw [hcd, hcdeq]
  · rw [← readField_obj h props "1. open" t v hl]; exact r1
  · rw [← readField_obj h props "2. high" t v hl]; exact r2
  · rw [← readField_obj h props "3. low" t v hl]; exact r3
  · rw [← readField_obj h props "4. close" t v hl]; exact r4

/-- Witness of C2 at the two-sample response of the scenario. -/
theorem fetchStockData_series_pointwise_witness :
    sampleIntraday.get "Time Series (5min)" = some (JsVal.obj sampleTimes) ∧
    (sampleTimes.map Prod.fst).Nodup ∧
    (fetchStockData_tryBlock sampleBuiltins "AAPL" sampleIntraday State.init).1 = Path.updated ∧
    ∃ (labels : List String) (prices : List SampleNum),
      (fetchStockData_settle sampleBuiltins "AAPL" (Outcome.json sampleIntraday)
          State.init).2.chartData =
        some { labels := labels, datasets := [{ label := "AAPL" ++ " Price", data := prices }] } ∧
      ∀ (i : Nat) (t : String) (v : JsVal SampleNum), sampleTimes.reverse[i]? = some (t, v) →
        ∃ o hi lo c,
          labels[i]? = some t ∧ prices[i]? = some o ∧
          (fetchStockData_settle sampleBuiltins "AAPL" (Outcome.json sampleIntraday)
              State.init).2.candlestickData[i]? = some { x := t, y := [o, hi, lo, c] } ∧
          (v.get "1. open").bind sampleBuiltins.parseFloat = some o ∧
          (v.get "2. high").bind sampleBuiltins.parseFloat = some hi ∧
          (v.get "3. low").bind sampleBuiltins.parseFloat = some lo ∧
          (v.get "4. close").bind sampleBuiltins.parseFloat = some c :=
  ⟨by rfl, by decide, by decide,
    fetchStockData_series_pointwise sampleBuiltins "AAPL" sampleIntraday State.init sampleTimes
      (by rfl) (by decide) (by decide)⟩

/-- C5. When a `fetchStockData` call settles with a failure (the request or
the JSON parsing rejects, reading `"Time Series (5min)"` off the body throws, or
the field is absent or falsy), no exception escapes, `loading` is `false`, and
`chartData` and `candlestickData` are what they were before; the synchronous
part of the call, whatever value it is called with, does not touch them
either. -/
theorem fetchStockData_failure_keeps_charts (h : Builtins Num) (symbol : String)
    (o : Outcome Num) (s : State Num) (a : App Num) (called : JsVal Num)
    (hfail : o = Outcome.rejected ∨
      ∃ result, o = Outcome.json result ∧
        (result.get "Time Series (5min)" = none ∨
          ∃ v, result.get "Time Series (5min)" = some v ∧ h.truthy v = false)) :
    (fetchStockData_settle h symbol o s).1 = Completion.normal ∧
    (fetchStockData_settle h symbol o s).2.loading = false ∧
    (fetchStockData_settle h symbol o s).2.charts = s.charts ∧
    (fetchStockData_call h called a).ui.charts = a.ui.charts := by
  have hcall : (fetchStockData_call h called a).ui.charts = a.ui.charts := by
    unfold fetchStockData_call
    cases h.toStr called <;> rfl
  rcases hfail with rfl | ⟨result, rfl, hnone | ⟨v, hv, hf⟩⟩
  · exact ⟨rfl, rfl, rfl, hcall⟩
  · refine ⟨rfl, rfl, ?_, hcall⟩
    simp [fetchStockData_settle, fetchStockData_tryBlock, hnone, State.charts]
  · refine ⟨rfl, rfl, ?_, hcall⟩
    simp [fetchStockData_settle, fetchStockData_tryBlock, hv, hf, State.charts]

/-- Witness of C5 at a response without the field, arriving after a successful fetch. -/
theorem fetchStockData_failure_keeps_charts_witness :
    (Outcome.json sampleNote = Outcome.rejected ∨
      ∃ result, Outcome.json sampleNote = Outcome.json result ∧
        (result.get "Time Series (5min)" = none ∨
          ∃ v, result.get "Time Series (5min)" = some v ∧ sampleBuiltins.truthy v = false)) ∧
    (fetchStockData_settle sampleBuiltins "MSFT" (Outcome.json sampleNote)
      (fetchStockData_settle sampleBuiltins "AAPL" (Outcome.json sampleIntraday)
        State.init).2).1 = Completion.normal ∧
    (fetchStockData_settle sampleBuiltins "MSFT" (Outcome.json sampleNote)
      (fetchStockData_settle sampleBuiltins "AAPL" (Outcome.json sampleIntraday)
        State.init).2).2.loading = false ∧
    (fetchStockData_settle sampleBuiltins "MSFT" (Outcome.json sampleNote)
      (fetchStockData_settle sampleBuiltins "AAPL" (Outcome.json sampleIntraday)
        State.init).2).2.charts =
      (fetchStockData_settle sampleBuiltins "AAPL" (Outcome.json sampleIntraday)
        State.init).2.charts ∧
    (fetchStockData_call sampleBuiltins (JsVal.str "MSFT") sampleSelected).ui.charts =
      sampleSelected.ui.charts :=
  ⟨Or.inr ⟨sampleNote, rfl, Or.inr ⟨JsVal.undefined, by rfl, rfl⟩⟩,
    fetchStockData_failure_keeps_charts sampleBuiltins "MSFT" (Outcome.json sampleNote)
      (fetchStockData_settle sampleBuiltins "AAPL" (Outcome.json sampleIntraday) State.init).2
      sampleSelected (JsVal.str "MSFT")
      (Or.inr ⟨sampleNote, rfl, Or.inr ⟨JsVal.undefined, by rfl, rfl⟩⟩)⟩

theorem renderSuggestions_eq_jsMap (items : List (JsVal Num)) :
    renderSuggestions items = jsMap suggestionItem items := by
  cases items with
  | nil => rfl
  | cons a as => simp [renderSuggestions]

/-- C6, counterexample. A search for a non-empty query answers with the body
`null`, which parses and has no `bestMatches`; the suggestion list keeps the
entry of the search before and is not empty. -/
theorem fetchSuggestions_null_keeps_list :
    (JsVal.null : JsVal SampleNum).get "bestMatches" = none ∧
    (run sampleBuiltins App.init nullSearchTrace).map (fun a => a.ui.suggestions) =
      some (JsVal.arr [sampleMatch "AAPL" "Apple Inc."]) ∧
    JsVal.arr [sampleMatch "AAPL" "Apple Inc."] ≠ (JsVal.arr [] : JsVal SampleNum) :=
  ⟨rfl, by rfl, by simp⟩

/-- C6, amended. For a search response that parses to `result`: when
`result.bestMatches` is a list `items`, or when reading it yields `undefined` or
another falsy value and `items` is empty, no exception escapes and the
suggestion list becomes exactly `items`, every other hook being left alone; for
the body `null` the read throws, the `catch` swallows it and the state is left as
it was; the rendered list has one entry per item, in order, entry `i` showing
`'1. symbol'` and `'2. name'` as read from item `i`. -/
theorem fetchSuggestions_settle_matches (h : Builtins Num) (result : JsVal Num)
    (s : State Num) (items : List (JsVal Num))
    (hcase : result.get "bestMatches" = some (JsVal.arr items) ∨
      ∃ v, result.get "bestMatches" = some v ∧ h.truthy v = false ∧ items = []) :
    fetchSuggestions_settle h (Outcome.json result) s =
      (Completion.normal, { s with suggestions := JsVal.arr items }) ∧
    fetchSuggestions_settle h (Outcome.json JsVal.null) s = (Completion.normal, s) ∧
    ∀ rendered, renderSuggestions items = some rendered →
      rendered.length = items.length ∧
      ∀ (i : Nat) (item : JsVal Num), items[i]? = some item →
        ∃ entry, rendered[i]? = some entry ∧ suggestionItem item = some entry := by
  refine ⟨?_, rfl, ?_⟩
  · rcases hcase with hl | ⟨v, hv, hf, rfl⟩
    · simp [fetchSuggestions_settle, fetchSuggestions_tryBlock, hl, Builtins.truthy]
    · simp [fetchSuggestions_settle, fetchSuggestions_tryBlock, hv, hf]
  · intro rendered hr
    rw [renderSuggestions_eq_jsMap] at hr
    exact ⟨jsMap_length _ _ _ hr, fun i item hi => jsMap_getElem? _ _ _ hr i item hi⟩

/-- Witness of C6 at a search response with one match. -/
theorem fetchSuggestions_settle_matches_witness :
    ((sampleSearch "AAPL" "Apple Inc.").get "bestMatches" =
        some (JsVal.arr [sampleMatch "AAPL" "Apple Inc."]) ∨
      ∃ v, (sampleSearch "AAPL" "Apple Inc.").get "bestMatches" = some v ∧
        sampleBuiltins.truthy v = false ∧ [sampleMatch "AAPL" "Apple Inc."] = []) ∧
    (fetchSuggestions_settle sampleBuiltins (Outcome.json (sampleSearch "AAPL" "Apple Inc."))
        State.init =
      (Completion.normal,
        { (State.init : State SampleNum) with
          suggestions := JsVal.arr [sampleMatch "AAPL" "Apple Inc."] }) ∧
    fetchSuggestions_settle sampleBuiltins (Outcome.json JsVal.null) State.init =
      (Completion.normal, State.init) ∧
    ∀ rendered, renderSuggestions [sampleMatch "AAPL" "Apple Inc."] = some rendered →
      rendered.length = [sampleMatch "AAPL" "Apple Inc."].length ∧
      ∀ (i : Nat) (item : JsVal SampleNum),
        [sampleMatch "AAPL" "Apple Inc."][i]? = some item →
        ∃ entry, rendered[i]? = some entry ∧ suggestionItem item = some entry) :=
  ⟨Or.inl (by rfl),
    fetchSuggestions_settle_matches sampleBuiltins (sampleSearch "AAPL" "Apple Inc.") State.init
      [sampleMatch "AAPL" "Apple Inc."] (Or.inl (by rfl))⟩

theorem tryBlock_path_state_free (h : Builtins Num) (symbol : String) (result : JsVal Num)
    (s t : State Num) :
    (fetchStockData_tryBlock h symbol result s).1 = (fetchStockData_tryBlock h symbol result t).1 := by
  unfold fetchStockData_tryBlock
  cases result.get "Time Series (5min)" with
  | none => rfl
  | some times =>
    simp only
    cases h.truthy times with
    | false => rfl
    | true =>
      simp only [if_true]
      cases jsMap (readField h times "1. open") (objectKeys times).reverse with
      | none => rfl
      | some prices =>
        simp only
        cases jsMap (readCandle h times) (objectKeys times).reverse <;> rfl

/-- After a successful run, `fetchStockData` leaves the series of its own
response, whatever the state before and whatever symbol is selected. -/
theorem settle_updated_charts (h : Builtins Num) (symbol : String) (result : JsVal Num)
    (s : State Num) (hok : (fetchStockData_tryBlock h symbol result s).1 = Path.updated) :
    (fetchStockData_settle h symbol (Outcome.json result) s).2.charts = seriesOf h symbol result ∧
    (fetchStockData_settle h symbol (Outcome.json result) s).2.selectedStock = s.selectedStock := by
  have hok0 : (fetchStockData_tryBlock h symbol result State.init).1 = Path.updated := by
    rw [tryBlock_path_state_free h symbol result State.init s]; exact hok
  obtain ⟨times, prices, candlestick, hg, _, hp, hc, hs⟩ := tryBlock_updated h symbol result s hok
  obtain ⟨times0, prices0, candlestick0, hg0, _, hp0, hc0, hs0⟩ :=
    tryBlock_updated h symbol result State.init hok0
  rw [hg] at hg0
  cases hg0
  rw [hp] at hp0
  rw [hc] at hc0
  cases hp0
  cases hc0
  simp [fetchStockData_settle, State.charts, seriesOf, hs, hs0]

/-- C3, counterexample. AAPL is selected, then MSFT while the AAPL fetches are
pending; the MSFT fetches resolve successfully, then the AAPL fetches. At the
end MSFT is selected, nothing is in flight, and the chart data is that of the
AAPL response, which differs from that of the MSFT response. -/
theorem stale_response_overwrites :
    (run sampleBuiltins App.init staleTrace).map
        (fun a => (a.ui.selectedStock, a.ui.loading, a.intradayInFlight, a.ui.charts)) =
      some (JsVal.str "MSFT", false, [], seriesOf sampleBuiltins "AAPL" sampleIntraday) ∧
    seriesOf sampleBuiltins "AAPL" sampleIntraday ≠
      seriesOf sampleBuiltins "MSFT" sampleIntradayMsft :=
  ⟨by rfl, by decide⟩

/-- C3, amended. When the fetches for two symbols `A` and `B` both resolve
successfully, the chart data (`chartData` and `candlestickData`) is that of the
response that arrived last, whatever symbol is selected: that of `B` when
the response of `B` arrives last, that of `A` when the response of `A` arrives
last; the selection itself is not touched. -/
theorem last_response_wins (h : Builtins Num) (s : State Num) (symbolA symbolB : String)
    (resultA resultB : JsVal Num)
    (hA : (fetchStockData_tryBlock h symbolA resultA s).1 = Path.updated)
    (hB : (fetchStockData_tryBlock h symbolB resultB s).1 = Path.updated) :
    (fetchStockData_settle h symbolB (Outcome.json resultB)
        (fetchStockData_settle h symbolA (Outcome.json resultA) s).2).2.charts
      = seriesOf h symbolB resultB ∧
    (fetchStockData_settle h symbolA (Outcome.json resultA)
        (fetchStockData_settle h symbolB (Outcome.json resultB) s).2).2.charts
      = seriesOf h symbolA resultA ∧
    (fetchStockData_settle h symbolB (Outcome.json resultB)
        (fetchStockData_settle h symbolA (Outcome.json resultA) s).2).2.selectedStock
      = s.selectedStock ∧
    (fetchStockData_settle h symbolA (Outcome.json resultA)
        (fetchStockData_settle h symbolB (Outcome.json resultB) s).2).2.selectedStock
      = s.selectedStock := by
  have hB1 := settle_updated_charts h symbolB resultB
    (fetchStockData_settle h symbolA (Outcome.json resultA) s).2
    (by rw [tryBlock_path_state_free h symbolB resultB _ s]; exact hB)
  have hA1 := settle_updated_charts h symbolA resultA
    (fetchStockData_settle h symbolB (Outcome.json resultB) s).2
    (by rw [tryBlock_path_state_free h symbolA resultA _ s]; exact hA)
  have hA0 := settle_updated_charts h symbolA resultA s hA
  have hB0 := settle_updated_charts h symbolB resultB s hB
  exact ⟨hB1.1, hA1.1, by rw [hB1.2, hA0.2], by rw [hA1.2, hB0.2]⟩

/-- Witness of C3 at the AAPL and MSFT responses. -/
theorem last_response_wins_witness :
    (fetchStockData_tryBlock sampleBuiltins "AAPL" sampleIntraday State.init).1 = Path.updated ∧
    (fetchStockData_tryBlock sampleBuiltins "MSFT" sampleIntradayMsft State.init).1
      = Path.updated ∧
    (fetchStockData_settle sampleBuiltins "MSFT" (Outcome.json sampleIntradayMsft)
        (fetchStockData_settle sampleBuiltins "AAPL" (Outcome.json sampleIntraday)
          State.init).2).2.charts
      = seriesOf sampleBuiltins "MSFT" sampleIntradayMsft ∧
    (fetchStockData_settle sampleBuiltins "AAPL" (Outcome.json sampleIntraday)
        (fetchStockData_settle sampleBuiltins "MSFT" (Outcome.json sampleIntradayMsft)
          State.init).2).2.charts
      = seriesOf sampleBuiltins "AAPL" sampleIntraday ∧
    (fetchStockData_settle sampleBuiltins "MSFT" (Outcome.json sampleIntradayMsft)
        (fetchStockData_settle sampleBuiltins "AAPL" (Outcome.json sampleIntraday)
          State.init).2).2.selectedStock
      = (State.init : State SampleNum).selectedStock ∧
    (fetchStockData_settle sampleBuiltins "AAPL" (Outcome.json sampleIntraday)
        (fetchStockData_settle sampleBuiltins "MSFT" (Outcome.json sampleIntradayMsft)
          State.init).2).2.selectedStock
      = (State.init : State SampleNum).selectedStock :=
  ⟨by decide, by decide,
    last_response_wins sampleBuiltins State.init "AAPL" "MSFT" sampleIntraday sampleIntradayMsft
      (by decide) (by decide)⟩

/-! ## The loading flag -/

theorem fetchStockData_call_inv (h : Builtins Num) (symbol : JsVal Num) (a : App Num) :
    LoadingInv (fetchStockData_call h symbol a) := by
  unfold fetchStockData_call
  cases h.toStr symbol with
  | none => intro hl; exact absurd hl (by simp)
  | some text => intro _; simp

/-- The synchronous part of `fetchStockData` either issues one request and
leaves `loading` set, or issues none and leaves it cleared. -/
theorem fetchStockData_call_cases (h : Builtins Num) (symbol : JsVal Num) (a : App Num) :
    (∃ text, h.toStr symbol = some text ∧ (fetchStockData_call h symbol a).ui.loading = true ∧
      (fetchStockData_call h symbol a).intradayInFlight = a.intradayInFlight ++ [text]) ∨
    (h.toStr symbol = none ∧ (fetchStockData_call h symbol a).ui.loading = false ∧
      (fetchStockData_call h symbol a).intradayInFlight = a.intradayInFlight) := by
  unfold fetchStockData_call
  cases hs : h.toStr symbol with
  | none => exact Or.inr ⟨rfl, rfl, rfl⟩
  | some text => exact Or.inl ⟨text, rfl, rfl, rfl⟩

theorem selectedStockEffect_inv (h : Builtins Num) (previous : JsVal Num) (a : App Num)
    (ha : LoadingInv a) : LoadingInv (selectedStockEffect h previous a) := by
  unfold selectedStockEffect
  split
  · exact ha
  · split
    · exact fetchStockData_call_inv h _ a
    · exact ha

theorem fetchSuggestions_settle_loading (h : Builtins Num) (o : Outcome Num) (s : State Num) :
    (fetchSuggestions_settle h o s).2.loading = s.loading := by
  cases o with
  | rejected => rfl
  | json result =>
    simp only [fetchSuggestions_settle, fetchSuggestions_tryBlock]
    cases result.get "bestMatches" with
    | none => rfl
    | some bm =>
      simp only
      cases h.truthy bm <;> rfl

theorem fetchStockData_settle_loading (h : Builtins Num) (symbol : String) (o : Outcome Num)
    (s : State Num) : (fetchStockData_settle h symbol o s).2.loading = false := by
  cases o <;> rfl

/-- The effect of `handleStockSelect` followed by the effect on `selectedStock`
on `loading` and the requests in flight. -/
theorem select_loading (h : Builtins Num) (symbol : JsVal Num) (a : App Num) :
    ((selectedStockEffect h a.ui.selectedStock (handleStockSelect h symbol a)).ui.loading = true ∧
      ∃ text,
        (selectedStockEffect h a.ui.selectedStock (handleStockSelect h symbol a)).intradayInFlight
            = a.intradayInFlight ++ [text] ∨
        (selectedStockEffect h a.ui.selectedStock (handleStockSelect h symbol a)).intradayInFlight
            = a.intradayInFlight ++ [text, text]) ∨
    ((selectedStockEffect h a.ui.selectedStock (handleStockSelect h symbol a)).ui.loading = false ∧
      (selectedStockEffect h a.ui.selectedStock (handleStockSelect h symbol a)).intradayInFlight
        = a.intradayInFlight) := by
  cases hs : h.toStr symbol with
  | none =>
    refine Or.inr ?_
    unfold selectedStockEffect
    split
    · simp [handleStockSelect, fetchStockData_call, hs]
    · split
      · simp [handleStockSelect, fetchStockData_call, hs]
      · simp [handleStockSelect, fetchStockData_call, hs]
  | some text =>
    refine Or.inl ?_
    unfold selectedStockEffect
    split
    · exact ⟨by simp [handleStockSelect, fetchStockData_call, hs],
        text, Or.inl (by simp [handleStockSelect, fetchStockData_call, hs])⟩
    · split
      · exact ⟨by simp [handleStockSelect, fetchStockData_call, hs],
          text, Or.inr (by simp [handleStockSelect, fetchStockData_call, hs])⟩
      · exact ⟨by simp [handleStockSelect, fetchStockData_call, hs],
          text, Or.inl (by simp [handleStockSelect, fetchStockData_call, hs])⟩

/-- Every turn of the event loop acts on `loading` and on the intraday
requests in flight as `LoadingStep` says. -/
theorem step_loading (h : Builtins Num) (a a1 : App Num) (e : Event Num)
    (he : step h a e = some a1) : LoadingStep a e a1 := by
  cases e with
  | input value =>
    simp only [step, handle, Option.some.injEq] at he
    subst he
    unfold handleInputChange
    split <;> exact ⟨rfl, rfl⟩
  | click index =>
    simp only [step, handle] at he
    split at he
    · simp at he
    · rename_i a2 hh
      split at hh
      · split at hh
        · split at hh
          · simp only [Option.some.injEq] at hh he
            subst hh
            subst he
            exact select_loading h _ a
          · simp at hh
        · simp at hh
      · simp at hh
  | lineChart =>
    simp only [step, handle, Option.some.injEq] at he
    subst he
    exact ⟨rfl, rfl⟩
  | candlestickChart =>
    simp only [step, handle, Option.some.injEq] at he
    subst he
    exact ⟨rfl, rfl⟩
  | searchSettles k o =>
    simp only [step, handle] at he
    split at he
    · simp at he
    · rename_i a2 hh
      split at hh
      · simp only [Option.some.injEq] at hh he
        subst hh
        subst he
        exact ⟨fetchSuggestions_settle_loading h o a.ui, rfl⟩
      · simp at hh
  | intradaySettles k o =>
    simp only [step, handle] at he
    split at he
    · simp at he
    · rename_i a2 hh
      split at hh
      · simp only [Option.some.injEq] at hh he
        subst hh
        subst he
        exact ⟨fetchStockData_settle_loading h _ o a.ui, rfl⟩
      · simp at hh

theorem step_inv (h : Builtins Num) (a a1 : App Num) (e : Event Num) (ha : LoadingInv a)
    (he : step h a e = some a1) : LoadingInv a1 := by
  have hstep := step_loading h a a1 e he
  intro hl
  cases e with
  | click index =>
    rcases hstep with ⟨_, text, hin | hin⟩ | ⟨hf, _⟩
    · rw [hin]; simp
    · rw [hin]; simp
    · rw [hf] at hl; exact absurd hl (by decide)
  | intradaySettles k o =>
    rw [hstep.1] at hl
    exact absurd hl (by decide)
  | input value =>
    obtain ⟨h1, h2⟩ := hstep
    rw [h2]; exact ha (h1 ▸ hl)
  | lineChart =>
    obtain ⟨h1, h2⟩ := hstep
    rw [h2]; exact ha (h1 ▸ hl)
  | candlestickChart =>
    obtain ⟨h1, h2⟩ := hstep
    rw [h2]; exact ha (h1 ▸ hl)
  | searchSettles k o =>
    obtain ⟨h1, h2⟩ := hstep
    rw [h2]; exact ha (h1 ▸ hl)

theorem run_inv (h : Builtins Num) (es : List (Event Num)) :
    ∀ a a1 : App Num, LoadingInv a → run h a es = some a1 → LoadingInv a1 := by
  induction es with
  | nil =>
    intro a a1 ha hr
    simp only [run, Option.some.injEq] at hr
    subst hr
    exact ha
  | cons e es ih =>
    intro a a1 ha hr
    simp only [run] at hr
    cases hs : step h a e with
    | none => simp [hs] at hr
    | some a2 =>
      simp only [hs] at hr
      exact ih a2 a1 (step_inv h a a2 e ha hs) hr

/-- Events that neither call `fetchStockData` nor settle one of its requests
leave `loading` and the intraday requests in flight as they were. -/
theorem run_frame (h : Builtins Num) (es : List (Event Num)) :
    ∀ a a1 : App Num, (∀ e ∈ es, e.isFetchEvent = false) → run h a es = some a1 →
      a1.ui.loading = a.ui.loading ∧ a1.intradayInFlight = a.intradayInFlight := by
  induction es with
  | nil =>
    intro a a1 _ hr
    simp only [run, Option.some.injEq] at hr
    subst hr
    exact ⟨rfl, rfl⟩
  | cons e es ih =>
    intro a a1 hall hr
    simp only [run] at hr
    cases hs : step h a e with
    | none => simp [hs] at hr
    | some a2 =>
      simp only [hs] at hr
      have hrest := ih a2 a1 (fun x hx => hall x (List.mem_cons_of_mem e hx)) hr
      have he := hall e (List.mem_cons_self e es)
      have hstep := step_loading h a a2 e hs
      cases e with
      | click index => simp [Event.isFetchEvent] at he
      | intradaySettles k o => simp [Event.isFetchEvent] at he
      | input value => exact ⟨hrest.1.trans hstep.1, hrest.2.trans hstep.2⟩
      | lineChart => exact ⟨hrest.1.trans hstep.1, hrest.2.trans hstep.2⟩
      | candlestickChart => exact ⟨hrest.1.trans hstep.1, hrest.2.trans hstep.2⟩
      | searchSettles k o => exact ⟨hrest.1.trans hstep.1, hrest.2.trans hstep.2⟩

/-- Once `loading` is `false` it stays `false` until a symbol is selected. -/
theorem run_stays_false (h : Builtins Num) (es : List (Event Num)) :
    ∀ a a1 : App Num, (∀ e ∈ es, e.isSelect = false) → run h a es = some a1 →
      a.ui.loading = false → a1.ui.loading = false := by
  induction es with
  | nil =>
    intro a a1 _ hr hl
    simp only [run, Option.some.injEq] at hr
    subst hr
    exact hl
  | cons e es ih =>
    intro a a1 hall hr hl
    simp only [run] at hr
    cases hs : step h a e with
    | none => simp [hs] at hr
    | some a2 =>
      simp only [hs] at hr
      have he := hall e (List.mem_cons_self e es)
      have hstep := step_loading h a a2 e hs
      refine ih a2 a1 (fun x hx => hall x (List.mem_cons_of_mem e hx)) hr ?_
      cases e with
      | click index => simp [Event.isSelect] at he
      | intradaySettles k o => exact hstep.1
      | input value => exact hstep.1.trans hl
      | lineChart => exact hstep.1.trans hl
      | candlestickChart => exact hstep.1.trans hl
      | searchSettles k o => exact hstep.1.trans hl

/-- A click on a suggestion without `'1. symbol'` calls
`handleStockSelect(undefined)`: `selectedStock` is `undefined`, which is falsy,
so only the handler fetches, for the text `undefined`. -/
theorem click_without_symbol_fetches :
    (run sampleBuiltins App.init noSymbolTrace).map
        (fun a => (a.ui.selectedStock, a.ui.loading, a.intradayInFlight)) =
      some (JsVal.undefined, true, ["undefined"]) :=
  by rfl

/-- C4, counterexample. AAPL is selected, which starts two fetches, and the
first of them resolves: `loading` is `false` while a fetch is still in flight. -/
theorem loading_false_while_in_flight :
    (run sampleBuiltins App.init firstSettleTrace).map
        (fun a => (a.ui.loading, a.intradayInFlight)) = some (false, ["AAPL"]) :=
  by decide

/-- C4, amended. In every reachable state, if `loading` is `true` then at least
one `fetchStockData` call has been initiated and has not settled. From such a
state, every turn of the event loop acts on `loading` as `LoadingStep` says: a
selection that issues a request leaves it `true`, the settlement of a request,
successful or failing, leaves it `false` also when other fetches are still in
flight, and every other event leaves `loading` and the requests in flight as
they were; so `loading` keeps its value over any run of events that neither
select a symbol nor settle a fetch, and once `false` it stays `false` until
the next selection. -/
theorem loading_only_while_in_flight (h : Builtins Num) (es : List (Event Num)) (a : App Num)
    (hr : run h App.init es = some a) :
    (a.ui.loading = true → a.intradayInFlight ≠ []) ∧
    (∀ e a1, step h a e = some a1 → LoadingStep a e a1) ∧
    (∀ es1 a1, (∀ e ∈ es1, e.isFetchEvent = false) → run h a es1 = some a1 →
      a1.ui.loading = a.ui.loading ∧ a1.intradayInFlight = a.intradayInFlight) ∧
    (∀ es1 a1, (∀ e ∈ es1, e.isSelect = false) → run h a es1 = some a1 →
      a.ui.loading = false → a1.ui.loading = false) :=
  ⟨run_inv h es App.init a (fun hl => absurd hl (by simp [App.init, State.init])) hr,
    fun e a1 he => step_loading h a a1 e he,
    fun es1 a1 hall hr1 => run_frame h es1 a a1 hall hr1,
    fun es1 a1 hall hr1 hl => run_stays_false h es1 a a1 hall hr1 hl⟩

/-- Witness of C4 at the state reached by selecting AAPL. -/
theorem loading_only_while_in_flight_witness :
    run sampleBuiltins App.init (selectTrace "AAP" "AAPL" "Apple Inc.") = some sampleSelected ∧
    ((sampleSelected.ui.loading = true → sampleSelected.intradayInFlight ≠ []) ∧
    (∀ e a1, step sampleBuiltins sampleSelected e = some a1 → LoadingStep sampleSelected e a1) ∧
    (∀ es1 a1, (∀ e ∈ es1, e.isFetchEvent = false) →
      run sampleBuiltins sampleSelected es1 = some a1 →
      a1.ui.loading = sampleSelected.ui.loading ∧
        a1.intradayInFlight = sampleSelected.intradayInFlight) ∧
    (∀ es1 a1, (∀ e ∈ es1, e.isSelect = false) →
      run sampleBuiltins sampleSelected es1 = some a1 →
      sampleSelected.ui.loading = false → a1.ui.loading = false)) :=
  ⟨by rfl,
    loading_only_while_in_flight sampleBuiltins (selectTrace "AAP" "AAPL" "Apple Inc.")
      sampleSelected (by rfl)⟩

/-- C7, counterexample. The user types `AAP`, clears the input, and the search
response arrives afterwards: the query is the empty string and the suggestion
list holds the match. -/
theorem late_search_fills_empty_query :
    (run sampleBuiltins App.init lateSearchTrace).map (fun a => a.ui.searchQuery) =
      some (JsVal.str "") ∧
    (run sampleBuiltins App.init lateSearchTrace).map (fun a => a.ui.suggestions) =
      some (JsVal.arr [sampleMatch "AAPL" "Apple Inc."]) ∧
    JsVal.arr [sampleMatch "AAPL" "Apple Inc."] ≠ (JsVal.arr [] : JsVal SampleNum) :=
  ⟨by rfl, by rfl, by simp⟩

/-- C7, amended. In every state, changing the input to the empty string leaves
the query empty and the suggestion list empty, whatever the suggestions were,
and issues no request: the search and intraday requests in flight are the
same as before. -/
theorem empty_input_clears_suggestions (h : Builtins Num) (a : App Num) :
    ∃ a1, step h a (Event.input "") = some a1 ∧
      a1.ui.searchQuery = JsVal.str "" ∧ a1.ui.suggestions = JsVal.arr [] ∧
      a1.searchInFlight = a.searchInFlight ∧ a1.intradayInFlight = a.intradayInFlight :=
  ⟨handleInputChange "" a, by simp [step, handle],
    rfl, rfl, rfl, rfl⟩

/-- C8. For every combination of `selectedStock`, `loading`, `isLineChart`,
`chartData` and `candlestickData`, at most one of the four views (prompt,
loading indicator, line chart, candlestick chart) is rendered; when `loading`
is `true` it is the loading indicator and no other. -/
theorem chart_area_exclusive (h : Builtins Num) (selectedStock : JsVal Num)
    (loading isLineChart : Bool)
    (chartData : Option (ChartData Num)) (candlestickData : List (Candle Num)) :
    (renderChartArea h selectedStock loading isLineChart chartData candlestickData).count ≤ 1 ∧
    renderChartArea h selectedStock true isLineChart chartData candlestickData =
      { prompt := false, loadingIndicator := true, lineChart := false,
        candlestickChart := false } := by
  constructor
  · unfold renderChartArea ChartArea.count
    cases loading <;> cases isLineChart <;> cases labelsTruthy chartData <;>
      cases h.truthy selectedStock <;> cases decide (candlestickData.length > 0) <;>
      simp
  · simp [renderChartArea]

/-- C9, failing input. AAPL is selected in line mode and its fetches resolve
successfully with zero samples: the line chart is rendered although the line
series is empty. -/
theorem line_chart_rendered_when_empty :
    (run sampleBuiltins App.init emptySeriesTrace).map
        (fun a => (a.ui.chartArea sampleBuiltins, a.ui.chartData)) =
      some ({ prompt := false, loadingIndicator := false, lineChart := true,
              candlestickChart := false },
            some { labels := [], datasets := [{ label := "AAPL Price", data := [] }] }) :=
  by decide

/-- On a string, `Object.is` with the current selection is equality. -/
theorem sameValue_str (h : Builtins Num) (v : JsVal Num) (symbol : String) :
    h.sameValue v (JsVal.str symbol) = true ↔ v = JsVal.str symbol := by
  cases v <;> simp [Builtins.sameValue]

/-- A click on the entry of suggestion `index` runs `handleStockSelect` on its
`'1. symbol'`, then the effect. -/
theorem step_click (h : Builtins Num) (a : App Num) (items : List (JsVal Num))
    (item symbol : JsVal Num) (index : Nat)
    (hs : a.ui.suggestions = JsVal.arr items) (hi : items[index]? = some item)
    (hsym : item.get "1. symbol" = some symbol) :
    step h a (Event.click index) =
      some (selectedStockEffect h a.ui.selectedStock (handleStockSelect h symbol a)) := by
  simp [step, handle, hs, hi, hsym]

/-- C10. Handling the selection of a symbol `symbol` (the handler, then the
effect on `selectedStock`) issues one intraday fetch for `symbol` when `symbol`
is the current selection or is empty, and two when it is non-empty and differs
from the current selection. Typing and the chart-mode buttons issue none: their
handlers leave the requests in flight and `selectedStock`, the dependency of
the effect, as they were, and so does the whole turn of the event loop. -/
theorem select_issues_one_or_two_fetches (h : Builtins Num) (a : App Num) (symbol : String) :
    (selectedStockEffect h a.ui.selectedStock
        (handleStockSelect h (JsVal.str symbol) a)).intradayInFlight =
      a.intradayInFlight ++
        (if h.sameValue a.ui.selectedStock (JsVal.str symbol) = true ∨ symbol = ""
          then [symbol] else [symbol, symbol]) ∧
    (∀ value, (handleInputChange value a).intradayInFlight = a.intradayInFlight ∧
      (handleInputChange value a).ui.selectedStock = a.ui.selectedStock ∧
      step h a (Event.input value) = some (handleInputChange value a)) ∧
    (∀ b, (setIsLineChart b a).intradayInFlight = a.intradayInFlight ∧
      (setIsLineChart b a).ui.selectedStock = a.ui.selectedStock) ∧
    step h a Event.lineChart = some (setIsLineChart true a) ∧
    step h a Event.candlestickChart = some (setIsLineChart false a) := by
  refine ⟨?_, ?_, ?_, rfl, rfl⟩
  · by_cases h1 : h.sameValue a.ui.selectedStock (JsVal.str symbol) = true
    · simp [selectedStockEffect, handleStockSelect, fetchStockData_call, Builtins.toStr, h1]
    · by_cases h2 : symbol = ""
      · simp [selectedStockEffect, handleStockSelect, fetchStockData_call, Builtins.toStr,
          Builtins.truthy, h1, h2]
      · simp [selectedStockEffect, handleStockSelect, fetchStockData_call, Builtins.toStr,
          Builtins.truthy, h1, h2]
  · intro value
    refine ⟨?_, ?_, rfl⟩
    · unfold handleInputChange
      split <;> rfl
    · unfold handleInputChange
      split <;> rfl
  · intro b
    exact ⟨rfl, rfl⟩

end StockContext
